import Mathlib

/-!
Verification of the core of the `pinkant/raft` replicated-consensus engine
(files `log.py` and `server.py`) against its natural-language specification.

The Python code is shallowly embedded: the mutable `Log` and `Server` objects
become immutable Lean structures, and each method becomes a pure function
returning the reply together with the updated state.  Python quirks that
matter for the claims are modelled faithfully:

* list slicing `l[:i]` with a possibly negative bound (`sync_at_item` slices
  with `index - 1`, which is `-1` when `index == 0`);
* the reply dictionary of `handle_append_entry_request` is built before
  `current_term` is updated, so the reply carries the handler-entry term;
* Python truthiness: `if request['entry']` skips falsy payloads (0, "", {});
  payloads are modelled as integers with truthiness `≠ 0`, and replica /
  candidate identifiers as naturals with truthiness `≠ 0` (the repository
  uses non-empty port strings, which are always truthy);
* `try_leader_commit` checks the majority threshold inside the loop over
  `followers_match_indexes`, so it can never fire on an empty table.
-/

namespace Raft

/-- `LogEntry` from `log.py`: a `(term, entry)` pair; the payload is an
opaque JSON value, modelled as `Int`. -/
structure LogEntry where
  term : Nat
  entry : Int
  deriving Repr, DecidableEq

/-- Python list slice `l[:i]` for an integer bound `i`: a non-negative bound
takes the first `i` elements, a negative bound counts from the end. -/
def pySliceTo (l : List LogEntry) (i : Int) : List LogEntry :=
  if 0 ≤ i then l.take i.toNat else l.take (l.length - (-i).toNat)

/-- `Log.append_item`: append `(term, entry)` at the end, return the new
1-based index together with the new log. -/
def append_item (log : List LogEntry) (term : Nat) (entry : Int) :
    Nat × List LogEntry :=
  (log.length + 1, log ++ [⟨term, entry⟩])

/-- `Log.get_item_term`: term of the 1-based `index`-th entry, `0` when
`index == 0` (Python: `self.log[index - 1].term if index else 0`). -/
def get_item_term (log : List LogEntry) (index : Nat) : Nat :=
  if index = 0 then 0 else ((log.get? (index - 1)).map LogEntry.term).getD 0

/-- `Log.get_item`: payload of the 1-based `index`-th entry, `None` when
`index` points one past the end. -/
def get_item (log : List LogEntry) (index : Nat) : Option Int :=
  if log.length + 1 = index then none
  else (log.get? (index - 1)).map LogEntry.entry

/-- `Log.sync_at_item`: the follower-side log-repair primitive.  Returns the
boolean reply together with the (possibly truncated) log.  The conflict
branch slices with `index - 1`, which in Python is `l[:-1]` when
`index == 0`. -/
def sync_at_item (log : List LogEntry) (index term : Nat) :
    Bool × List LogEntry :=
  if log.length < index then (false, log)
  else if get_item_term log index ≠ term then
    let log2 := pySliceTo log ((index : Int) - 1)
    (log2.length == 0, log2)
  else (true, log.take index)

/-- `Role` from `server.py`. -/
inductive Role where
  | FOLLOWER
  | LEADER
  | CANDIDATE
  deriving Repr, DecidableEq

/-- The mutable fields of the `Server` object that the RPC handlers and
drivers touch.  `followers_match_indexes` is the list of values of the
Python dict (iteration order of `dict.values()`). -/
structure ServerState where
  id : Nat
  role : Role
  talked_to_leader : Bool
  current_term : Nat
  voted_for : Option Nat
  log : List LogEntry
  leader_id : Option Nat
  commit_index : Nat
  majority : Nat
  followers_match_indexes : List Nat
  deriving Repr, DecidableEq

/-- The state of a freshly constructed `Server` for a cluster of
`cluster_size` replicas (before `del self.servers[server_index]`,
so `majority = cluster_size // 2 + 1`). -/
def initServer (id cluster_size : Nat) : ServerState where
  id := id
  role := Role.FOLLOWER
  talked_to_leader := false
  current_term := 0
  voted_for := none
  log := []
  leader_id := none
  commit_index := 0
  majority := cluster_size / 2 + 1
  followers_match_indexes := []

/-- AppendEntries request message: `entry` is a payload or null. -/
structure AppendEntryRequest where
  term : Nat
  leaderId : Nat
  prevLogIndex : Nat
  prevLogTerm : Nat
  entry : Option Int
  leaderCommit : Nat
  deriving Repr, DecidableEq

/-- AppendEntries reply message. -/
structure AppendEntryReply where
  term : Nat
  success : Bool
  deriving Repr, DecidableEq

/-- RequestVote request message. -/
structure VoteRequest where
  term : Nat
  candidateId : Nat
  lastLogIndex : Nat
  lastLogTerm : Nat
  deriving Repr, DecidableEq

/-- RequestVote reply message. -/
structure VoteReply where
  term : Nat
  voteGranted : Bool
  deriving Repr, DecidableEq

/-- Python truthiness of an optional payload: `if request['entry']` is
false for null and for a falsy payload such as the number 0. -/
def entryTruthy : Option Int → Bool
  | none => false
  | some v => v ≠ 0

/-- Python truthiness test `self.voted_for and self.voted_for != candidate_id`
(identifiers are naturals; `0` stands for a falsy identifier). -/
def votedForBlocks (v : Option Nat) (cand : Nat) : Bool :=
  match v with
  | none => false
  | some x => x ≠ 0 && x ≠ cand

/-- `Server.handle_append_entry_request`.  The reply dictionary is created
with the handler-entry `current_term` before any mutation, exactly as in
the source. -/
def handle_append_entry_request (s : ServerState) (r : AppendEntryRequest) :
    AppendEntryReply × ServerState :=
  let reply : AppendEntryReply := ⟨s.current_term, false⟩
  if r.term < s.current_term then (reply, s)
  else
    let s1 := { s with
      role := Role.FOLLOWER
      talked_to_leader := true
      leader_id := some r.leaderId
      current_term := r.term
      voted_for := none }
    let sync := sync_at_item s1.log r.prevLogIndex r.prevLogTerm
    let s2 := { s1 with log := sync.2 }
    if !sync.1 then (reply, s2)
    else
      let s3 :=
        if entryTruthy r.entry then
          { s2 with log := (append_item s2.log r.term (r.entry.getD 0)).2 }
        else s2
      let s4 :=
        if s3.commit_index < r.leaderCommit then
          { s3 with commit_index := min r.leaderCommit s3.log.length }
        else s3
      ({ reply with success := true }, s4)

/-- `Server.handle_vote_request`. -/
def handle_vote_request (s : ServerState) (r : VoteRequest) :
    VoteReply × ServerState :=
  let reply : VoteReply := ⟨s.current_term, false⟩
  if r.term < s.current_term then (reply, s)
  else if votedForBlocks s.voted_for r.candidateId then (reply, s)
  else
    let last_term := get_item_term s.log s.log.length
    if r.lastLogTerm < last_term then (reply, s)
    else if r.lastLogIndex < s.log.length then (reply, s)
    else ({ reply with voteGranted := true },
          { s with voted_for := some r.candidateId })

/-- `Server.check_response_term`: step down when the reply's term exceeds
the current term. -/
def check_response_term (s : ServerState) (responseTerm : Nat) :
    Bool × ServerState :=
  if s.current_term < responseTerm then
    (false, { s with
      role := Role.FOLLOWER
      current_term := responseTerm
      leader_id := none })
  else (true, s)

/-- The state mutation performed by `Server.do_elections` when an election
round starts: become candidate and increment the term. -/
def start_election (s : ServerState) : ServerState :=
  { s with role := Role.CANDIDATE, current_term := s.current_term + 1 }

/-- The counting loop of `Server.try_leader_commit`: fold over the match
indexes, returning true as soon as the running count reaches `majority`. -/
def commitLoop (majority index : Nat) : List Nat → Nat → Bool
  | [], _ => false
  | m :: ms, acc =>
    let acc2 := acc + (if index ≤ m then 1 else 0)
    if majority ≤ acc2 then true else commitLoop majority index ms acc2

/-- `Server.try_leader_commit`. -/
def try_leader_commit (s : ServerState) (index : Nat) : Bool × ServerState :=
  if index ≤ s.commit_index then (true, s)
  else if commitLoop s.majority index s.followers_match_indexes 1 then
    (true, { s with commit_index := index })
  else (false, s)

/-- The AppendEntries request that `Server.append_entry_to_follower` builds
for a follower whose `next_index` is `n`. -/
def leaderRequest (s : ServerState) (n : Nat) : AppendEntryRequest where
  term := s.current_term
  leaderId := s.id
  prevLogIndex := n - 1
  prevLogTerm := get_item_term s.log (n - 1)
  entry := get_item s.log n
  leaderCommit := s.commit_index

/-- An inbound RPC handled by a replica. -/
inductive RpcInput where
  | vote (r : VoteRequest)
  | append (r : AppendEntryRequest)
  deriving Repr, DecidableEq

/-- The state reached after handling one inbound RPC. -/
def stepRpc (s : ServerState) : RpcInput → ServerState
  | RpcInput.vote r => (handle_vote_request s r).2
  | RpcInput.append r => (handle_append_entry_request s r).2

/-- The state reached after handling a sequence of inbound RPCs. -/
def runRpcs (s : ServerState) : List RpcInput → ServerState
  | [] => s
  | i :: is => runRpcs (stepRpc s i) is

/-- The vote requests of a consecutive RequestVote sequence that the
replica answers with `voteGranted = true`. -/
def grantsOf (s : ServerState) : List VoteRequest → List VoteRequest
  | [] => []
  | r :: rs =>
    let p := handle_vote_request s r
    if p.1.voteGranted then r :: grantsOf p.2 rs else grantsOf p.2 rs

/-- Modelled from the spec's commit rule: the number of entries of a match
table that are at least `i` ("the number of replicas with matchIndex ≥ i"),
used to compare the code's counting loop against the specified threshold. -/
def countGe (i : Nat) : List Nat → Nat
  | [] => 0
  | m :: ms => (if i ≤ m then 1 else 0) + countGe i ms

/-- `sync_at_item(0, 0)` always succeeds and always leaves the log empty:
the length guard cannot fire, `get_item_term log 0 = 0` matches, and the
equality branch truncates to `log[:0]`. -/
theorem sync_at_item_zero_zero (log : List LogEntry) :
    sync_at_item log 0 0 = (true, []) := by
  simp [sync_at_item, get_item_term]

/-- C7 counterexample: on the one-entry log `[(1, 100)]`,
`sync_at_item(0, 0)` returns true but does NOT retain the log as is —
it truncates it to the empty log. -/
theorem c7_counterexample :
    (sync_at_item [⟨1, 100⟩] 0 0).1 = true ∧
    (sync_at_item [⟨1, 100⟩] 0 0).2 ≠ [⟨1, 100⟩] := by decide

/-- C7 (amended): for every log state, `sync_at_item(0, 0)` returns true;
it leaves an empty log empty, and it truncates a non-empty log to
length 0 (rather than retaining it exactly as is). -/
theorem c7_sync_at_zero_empties (log : List LogEntry) :
    sync_at_item log 0 0 = (true, []) :=
  sync_at_item_zero_zero log

/-- C1 counterexample: on the log `[(1, 1)]`, `sync_at_item(1, 2)` takes the
conflict branch, truncates the log to empty and still returns true, so
afterwards no entry at index 1 with term 2 exists. -/
theorem c1_counterexample :
    (sync_at_item [⟨1, 1⟩] 1 2).1 = true ∧
    ¬(1 ≤ (sync_at_item [⟨1, 1⟩] 1 2).2.length ∧
      get_item_term (sync_at_item [⟨1, 1⟩] 1 2).2 1 = 2) := by decide

/-- C1 (amended): if `sync_at_item(i, t)` returns true then afterwards the
log has length at most `i`, and when `i ≥ 1` either the entry at index `i`
exists with term `t`, or the log has been truncated to empty (the conflict
branch returns true exactly when the truncation leaves nothing behind). -/
theorem c1_sync_true_invariant (log : List LogEntry) (index term : Nat)
    (h : (sync_at_item log index term).1 = true) :
    (sync_at_item log index term).2.length ≤ index ∧
    (1 ≤ index →
      (index ≤ (sync_at_item log index term).2.length ∧
       get_item_term (sync_at_item log index term).2 index = term) ∨
      (sync_at_item log index term).2 = []) := by
  by_cases h1 : log.length < index
  · simp [sync_at_item, h1] at h
  · by_cases h2 : get_item_term log index = term
    · have hres : sync_at_item log index term = (true, log.take index) := by
        simp [sync_at_item, h1, h2]
      rw [hres]
      have hlen : index ≤ log.length := Nat.le_of_not_lt h1
      refine ⟨by simp [List.length_take], ?_⟩
      intro hi
      left
      refine ⟨by simp [List.length_take]; omega, ?_⟩
      have hz : index ≠ 0 := by omega
      simp only [get_item_term, hz, if_false] at h2 ⊢
      rw [List.get?_take (by omega)]
      exact h2
    · have hres : sync_at_item log index term =
          ((pySliceTo log ((index : Int) - 1)).length == 0,
            pySliceTo log ((index : Int) - 1)) := by
        simp [sync_at_item, h1, h2]
      rw [hres] at h ⊢
      simp only [beq_iff_eq] at h
      have hnil : pySliceTo log ((index : Int) - 1) = [] :=
        List.length_eq_zero.mp h
      simp [hnil]

/-- Shape of the AppendEntries handler's stale-term path: the request is
rejected with the handler-entry term and the state is untouched. -/
theorem handle_append_stale (s : ServerState) (r : AppendEntryRequest)
    (h : r.term < s.current_term) :
    handle_append_entry_request s r = (⟨s.current_term, false⟩, s) := by
  simp [handle_append_entry_request, h]

/-- C1 witness: syncing the two-entry log `[(1,1),(1,2)]` at index 2 with
term 1 succeeds and retains the matched entry. -/
theorem c1_witness :
    (sync_at_item [⟨1, 1⟩, ⟨1, 2⟩] 2 1).1 = true ∧
    ((2 ≤ (sync_at_item [⟨1, 1⟩, ⟨1, 2⟩] 2 1).2.length ∧
      get_item_term (sync_at_item [⟨1, 1⟩, ⟨1, 2⟩] 2 1).2 2 = 1) ∨
     (sync_at_item [⟨1, 1⟩, ⟨1, 2⟩] 2 1).2 = []) :=
  ⟨by decide,
   (c1_sync_true_invariant [⟨1, 1⟩, ⟨1, 2⟩] 2 1 (by decide)).2 (by decide)⟩

/-- C10 (confirmed): a stale-term AppendEntries request is answered with
`{currentTerm, false}` and the whole replica state is left untouched. -/
theorem c10_stale_term_rejected_unchanged (s : ServerState)
    (r : AppendEntryRequest) (h : r.term < s.current_term) :
    handle_append_entry_request s r = (⟨s.current_term, false⟩, s) :=
  handle_append_stale s r h

/-- C10 witness: a concrete stale request against a term-5 replica. -/
theorem c10_witness :
    (1 : Nat) < ({ initServer 9 3 with current_term := 5 } :
        ServerState).current_term ∧
    handle_append_entry_request { initServer 9 3 with current_term := 5 }
        ⟨1, 7, 0, 0, none, 0⟩ =
      (⟨5, false⟩, { initServer 9 3 with current_term := 5 }) :=
  ⟨by decide, c10_stale_term_rejected_unchanged
    { initServer 9 3 with current_term := 5 } ⟨1, 7, 0, 0, none, 0⟩ (by decide)⟩

/-- Shape of the AppendEntries handler's log-conflict path: the term is
adopted and the log truncated, but the reply is a failure and the commit
index is untouched. -/
theorem handle_append_sync_fail (s : ServerState) (r : AppendEntryRequest)
    (h1 : ¬ r.term < s.current_term)
    (h2 : (sync_at_item s.log r.prevLogIndex r.prevLogTerm).1 = false) :
    handle_append_entry_request s r =
      (⟨s.current_term, false⟩,
       { s with
         role := Role.FOLLOWER
         talked_to_leader := true
         leader_id := some r.leaderId
         current_term := r.term
         voted_for := none
         log := (sync_at_item s.log r.prevLogIndex r.prevLogTerm).2 }) := by
  simp [handle_append_entry_request, if_neg h1, h2]

/-- Shape of the AppendEntries handler's accept path: when the term check
and the log check both pass, the reply is `(handler-entry term, true)` and
the state adopts the request's term, appends the entry when truthy, and
recomputes the commit index. -/
theorem handle_append_accept (s : ServerState) (r : AppendEntryRequest)
    (h1 : ¬ r.term < s.current_term)
    (h2 : (sync_at_item s.log r.prevLogIndex r.prevLogTerm).1 = true) :
    handle_append_entry_request s r =
      (⟨s.current_term, true⟩,
       { s with
         role := Role.FOLLOWER
         talked_to_leader := true
         leader_id := some r.leaderId
         current_term := r.term
         voted_for := none
         log :=
           if entryTruthy r.entry then
             (sync_at_item s.log r.prevLogIndex r.prevLogTerm).2 ++
               [⟨r.term, r.entry.getD 0⟩]
           else (sync_at_item s.log r.prevLogIndex r.prevLogTerm).2
         commit_index :=
           if s.commit_index < r.leaderCommit then
             min r.leaderCommit
               (if entryTruthy r.entry then
                  (sync_at_item s.log r.prevLogIndex r.prevLogTerm).2.length + 1
                else (sync_at_item s.log r.prevLogIndex r.prevLogTerm).2.length)
           else s.commit_index }) := by
  simp only [handle_append_entry_request, if_neg h1, h2, Bool.not_true,
    Bool.false_eq_true, if_false, append_item]
  split <;> split <;> simp_all

/-- C5 counterexample: the fresh replica (term 0) accepts a term-3 request;
the state does adopt term 3 but the successful reply carries term 0, the
handler-entry value, not the updated term. -/
theorem c5_counterexample :
    (handle_append_entry_request (initServer 9 3) ⟨3, 7, 0, 0, none, 0⟩).1.success
        = true ∧
    (handle_append_entry_request (initServer 9 3)
        ⟨3, 7, 0, 0, none, 0⟩).2.current_term = 3 ∧
    (handle_append_entry_request (initServer 9 3) ⟨3, 7, 0, 0, none, 0⟩).1.term
        = 0 := by decide

/-- C5 (amended): on the accept path the handler does set
`currentTerm = request.term` before replying, and the reply is
`{t₀, true}` where `t₀` is the `currentTerm` at handler entry (the reply
dictionary is built before the term is updated), so the reply term is at
most `request.term` rather than equal to it. -/
theorem c5_accept_reply_has_entry_term (s : ServerState)
    (r : AppendEntryRequest) (h1 : ¬ r.term < s.current_term)
    (h2 : (sync_at_item s.log r.prevLogIndex r.prevLogTerm).1 = true) :
    (handle_append_entry_request s r).2.current_term = r.term ∧
    (handle_append_entry_request s r).1 = ⟨s.current_term, true⟩ ∧
    (handle_append_entry_request s r).1.term ≤ r.term := by
  rw [handle_append_accept s r h1 h2]
  exact ⟨rfl, rfl, Nat.le_of_not_lt h1⟩

/-- C5 witness: the accept path at a concrete term-3 request. -/
theorem c5_witness :
    ¬ (3 : Nat) < (initServer 9 3).current_term ∧
    (handle_append_entry_request (initServer 9 3)
        ⟨3, 7, 0, 0, none, 0⟩).2.current_term = 3 :=
  ⟨by decide, (c5_accept_reply_has_entry_term (initServer 9 3)
    ⟨3, 7, 0, 0, none, 0⟩ (by decide) (by decide)).1⟩

/-- C6 counterexample: the request entry `some 0` (the JSON payload `0`) is
non-null, the request is accepted, yet nothing is appended: the replica's
log stays empty because `if request['entry']` tests Python truthiness. -/
theorem c6_counterexample :
    (⟨1, 7, 0, 0, some 0, 0⟩ : AppendEntryRequest).entry ≠ none ∧
    (handle_append_entry_request (initServer 9 3) ⟨1, 7, 0, 0, some 0, 0⟩).1.success
        = true ∧
    (handle_append_entry_request (initServer 9 3) ⟨1, 7, 0, 0, some 0, 0⟩).2.log
        = [] := by decide

/-- C6 (amended): on the accept path, when the request entry is non-null
AND truthy, exactly one entry `(request.term, entry)` is appended at the
end of the synced log; when the entry is null or a falsy payload (such as
the number 0), nothing is appended. -/
theorem c6_append_iff_truthy (s : ServerState) (r : AppendEntryRequest)
    (h1 : ¬ r.term < s.current_term)
    (h2 : (sync_at_item s.log r.prevLogIndex r.prevLogTerm).1 = true) :
    (entryTruthy r.entry = true →
      (handle_append_entry_request s r).2.log =
        (sync_at_item s.log r.prevLogIndex r.prevLogTerm).2 ++
          [⟨r.term, r.entry.getD 0⟩]) ∧
    (entryTruthy r.entry = false →
      (handle_append_entry_request s r).2.log =
        (sync_at_item s.log r.prevLogIndex r.prevLogTerm).2) := by
  rw [handle_append_accept s r h1 h2]
  constructor
  · intro ht; simp [ht]
  · intro ht; simp [ht]

/-- C6 witness: a truthy payload is appended on the accept path. -/
theorem c6_witness :
    entryTruthy (some 42) = true ∧
    (handle_append_entry_request (initServer 9 3) ⟨1, 7, 0, 0, some 42, 0⟩).2.log
        = [⟨1, 42⟩] :=
  ⟨by decide, by
    rw [(c6_append_iff_truthy (initServer 9 3) ⟨1, 7, 0, 0, some 42, 0⟩
      (by decide) (by decide)).1 (by decide)]
    decide⟩

/-- The AppendEntries handler's resulting term: unchanged on the stale-term
path, the request's term otherwise. -/
theorem handle_append_current_term (s : ServerState) (r : AppendEntryRequest) :
    (handle_append_entry_request s r).2.current_term =
      if r.term < s.current_term then s.current_term else r.term := by
  by_cases h1 : r.term < s.current_term
  · rw [handle_append_stale s r h1, if_pos h1]
  · rw [if_neg h1]
    rcases hb : (sync_at_item s.log r.prevLogIndex r.prevLogTerm).1 with _ | _
    · rw [handle_append_sync_fail s r h1 hb]
    · rw [handle_append_accept s r h1 hb]

/-- The RequestVote handler never writes `current_term`. -/
theorem handle_vote_current_term (s : ServerState) (r : VoteRequest) :
    (handle_vote_request s r).2.current_term = s.current_term := by
  simp only [handle_vote_request]
  split_ifs <;> rfl

/-- C8 (confirmed): `currentTerm` is monotonically non-decreasing under
every state-mutating step: the AppendEntries handler, the RequestVote
handler, `check_response_term`, and the election driver's term increment. -/
theorem c8_current_term_monotone (s : ServerState) :
    (∀ r : AppendEntryRequest,
      s.current_term ≤ (handle_append_entry_request s r).2.current_term) ∧
    (∀ r : VoteRequest,
      s.current_term ≤ (handle_vote_request s r).2.current_term) ∧
    (∀ t : Nat, s.current_term ≤ (check_response_term s t).2.current_term) ∧
    s.current_term ≤ (start_election s).current_term := by
  refine ⟨fun r => ?_, fun r => ?_, fun t => ?_, ?_⟩
  · rw [handle_append_current_term]
    split <;> omega
  · rw [handle_vote_current_term]
  · simp only [check_response_term]
    split <;> simp <;> omega
  · exact Nat.le_succ _

/-- C3 counterexample: a reachable run of three accepted AppendEntries
requests drives `commitIndex` from 2 back down to 0 — the third request
truncates the log via the conflict branch of `sync_at_item`, succeeds, and
then clamps the commit index with `min(leaderCommit, log.len())`. -/
theorem c3_counterexample :
    (runRpcs (initServer 9 3)
      [RpcInput.append ⟨1, 7, 0, 0, some 10, 0⟩,
       RpcInput.append ⟨1, 7, 1, 1, some 20, 2⟩]).commit_index = 2 ∧
    (runRpcs (initServer 9 3)
      [RpcInput.append ⟨1, 7, 0, 0, some 10, 0⟩,
       RpcInput.append ⟨1, 7, 1, 1, some 20, 2⟩,
       RpcInput.append ⟨2, 7, 1, 2, none, 5⟩]).commit_index = 0 := by decide

/-- C3 (amended): `try_leader_commit` never decreases `commitIndex`, and
the AppendEntries handler guarantees only that the new `commitIndex` is at
least the minimum of the old `commitIndex` and the new log length — when
`sync_at_item` truncates the log below `commitIndex` and `leaderCommit`
exceeds it, the handler clamps `commitIndex` down to the new log length. -/
theorem c3_commit_index_bounds (s : ServerState) :
    (∀ i : Nat, s.commit_index ≤ (try_leader_commit s i).2.commit_index) ∧
    (∀ r : AppendEntryRequest,
      min s.commit_index (handle_append_entry_request s r).2.log.length ≤
        (handle_append_entry_request s r).2.commit_index) := by
  constructor
  · intro i
    simp only [try_leader_commit]
    split
    · exact le_refl _
    · rename_i hlt
      split
      · simp only []
        omega
      · exact le_refl _
  · intro r
    by_cases h1 : r.term < s.current_term
    · rw [handle_append_stale s r h1]
      exact Nat.min_le_left _ _
    · rcases hb : (sync_at_item s.log r.prevLogIndex r.prevLogTerm).1 with _ | _
      · rw [handle_append_sync_fail s r h1 hb]
        exact Nat.min_le_left _ _
      · rw [handle_append_accept s r h1 hb]
        rcases ht : entryTruthy r.entry with _ | _ <;>
          simp only [ht, if_true, if_false, Bool.false_eq_true,
            List.length_append, List.length_cons, List.length_nil] <;>
          split <;> omega

/-- The counting loop of `try_leader_commit` fires exactly when the number
of match indexes at least `i`, added to the running count, reaches the
majority — provided the running count is still below the majority, since
the threshold test sits inside the loop body. -/
theorem commitLoop_true_iff (majority i : Nat) (ms : List Nat) :
    ∀ acc : Nat, acc < majority →
      (commitLoop majority i ms acc = true ↔
        majority ≤ acc + countGe i ms) := by
  induction ms with
  | nil =>
    intro acc h
    simp only [commitLoop, countGe, Bool.false_eq_true, false_iff]
    omega
  | cons m tl ih =>
    intro acc h
    by_cases him : i ≤ m
    · simp only [commitLoop, countGe, if_pos him]
      by_cases hc : majority ≤ acc + 1
      · simp only [if_pos hc, true_iff]
        omega
      · simp only [if_neg hc]
        rw [ih _ (by omega)]
        omega
    · simp only [commitLoop, countGe, if_neg him]
      by_cases hc : majority ≤ acc + 0
      · exact absurd hc (by omega)
      · simp only [if_neg hc]
        rw [ih _ (by omega)]
        omega

/-- C4 (confirmed): in a leader state whose majority is
`floor(N/2) + 1` for cluster size `N = |peers| + 1` with at least one peer,
`try_leader_commit(i)` with `commitIndex < i` advances `commitIndex` to `i`
and returns true exactly when the replicas with `matchIndex ≥ i`, counting
the leader itself as one, number at least the majority; otherwise it
returns false and changes nothing; and with `commitIndex ≥ i` it returns
true without change. -/
theorem c4_try_leader_commit_spec (s : ServerState) (i : Nat)
    (hm : s.majority = (s.followers_match_indexes.length + 1) / 2 + 1)
    (hp : 1 ≤ s.followers_match_indexes.length) :
    (i ≤ s.commit_index → try_leader_commit s i = (true, s)) ∧
    (s.commit_index < i →
      (s.majority ≤ 1 + countGe i s.followers_match_indexes →
        try_leader_commit s i = (true, { s with commit_index := i })) ∧
      (1 + countGe i s.followers_match_indexes < s.majority →
        try_leader_commit s i = (false, s))) := by
  have hmaj2 : 2 ≤ s.majority := by omega
  refine ⟨fun h => by simp [try_leader_commit, h], fun h => ⟨?_, ?_⟩⟩
  · intro hcount
    have hloop : commitLoop s.majority i s.followers_match_indexes 1 = true :=
      (commitLoop_true_iff s.majority i s.followers_match_indexes 1
        (by omega)).mpr (by omega)
    simp [try_leader_commit, Nat.not_le_of_lt h, hloop]
  · intro hcount
    have hloop : commitLoop s.majority i s.followers_match_indexes 1 = false := by
      rcases hx : commitLoop s.majority i s.followers_match_indexes 1 with _ | _
      · rfl
      · have := (commitLoop_true_iff s.majority i s.followers_match_indexes 1
          (by omega)).mp hx
        omega
    simp [try_leader_commit, Nat.not_le_of_lt h, hloop]

/-- C4 witness: a 3-replica leader with match table `[3, 0]` commits
index 2 (the leader plus one follower reach the majority of 2). -/
theorem c4_witness :
    ({ initServer 9 3 with followers_match_indexes := [3, 0] } :
        ServerState).commit_index < 2 ∧
    try_leader_commit
        { initServer 9 3 with followers_match_indexes := [3, 0] } 2 =
      (true, { initServer 9 3 with
        followers_match_indexes := [3, 0], commit_index := 2 }) :=
  ⟨by decide,
   ((c4_try_leader_commit_spec
      { initServer 9 3 with followers_match_indexes := [3, 0] } 2
      (by decide) (by decide)).2 (by decide)).1 (by decide)⟩

/-- C9 (confirmed): under sequential execution, when the leader builds the
AppendEntries request for a follower whose `nextIndex` is `n ≥ 1` and the
follower's reply has `success = false` with a term not exceeding the
leader's current term, then `n ≥ 2` — so the decrement in
`append_entry_to_follower` never drives `nextIndex[peer]` to zero and the
assertion `> 0` holds. -/
theorem c9_decrement_keeps_next_index_positive
    (leader follower : ServerState) (n : Nat) (hn : 1 ≤ n)
    (hfail : (handle_append_entry_request follower
        (leaderRequest leader n)).1.success = false)
    (hterm : (handle_append_entry_request follower
        (leaderRequest leader n)).1.term ≤ leader.current_term) :
    2 ≤ n ∧ 1 ≤ n - 1 := by
  have h2 : 2 ≤ n := by
    by_contra hlt
    have hn1 : n = 1 := by omega
    subst hn1
    have hreq : leaderRequest leader 1 =
        { term := leader.current_term, leaderId := leader.id,
          prevLogIndex := 0, prevLogTerm := 0,
          entry := get_item leader.log 1,
          leaderCommit := leader.commit_index } := by
      simp [leaderRequest, get_item_term]
    rw [hreq] at hfail hterm
    by_cases hc : leader.current_term < follower.current_term
    · rw [handle_append_stale follower _ hc] at hfail hterm
      exact absurd hterm (by simpa using hc)
    · have hsync : (sync_at_item follower.log 0 0).1 = true := by
        rw [sync_at_item_zero_zero]
      rw [handle_append_accept follower _ hc hsync] at hfail
      exact absurd hfail (by simp)
  exact ⟨h2, by omega⟩

/-- C9 witness: a term-1 leader with a two-entry log probes `nextIndex = 2`
at a fresh follower with an empty log; the follower replies
`success = false` with term 0, and indeed `2 ≤ 2`. -/
theorem c9_witness :
    (handle_append_entry_request (initServer 8 3)
        (leaderRequest
          { initServer 9 3 with
            log := [⟨1, 10⟩, ⟨1, 20⟩], current_term := 1 } 2)).1.success
        = false ∧
    2 ≤ 2 ∧ 1 ≤ 2 - 1 :=
  ⟨by decide,
   c9_decrement_keeps_next_index_positive
    { initServer 9 3 with log := [⟨1, 10⟩, ⟨1, 20⟩], current_term := 1 }
    (initServer 8 3) 2 (by decide) (by decide) (by decide)⟩

/-- A rejected vote request leaves the replica state untouched. -/
theorem handle_vote_reject_state (s : ServerState) (r : VoteRequest)
    (h : (handle_vote_request s r).1.voteGranted = false) :
    (handle_vote_request s r).2 = s := by
  simp only [handle_vote_request] at h ⊢
  split_ifs at h ⊢ <;> simp_all

/-- A granted vote request records the candidate in `voted_for`. -/
theorem handle_vote_grant_votedFor (s : ServerState) (r : VoteRequest)
    (h : (handle_vote_request s r).1.voteGranted = true) :
    (handle_vote_request s r).2.voted_for = some r.candidateId := by
  simp only [handle_vote_request] at h ⊢
  split_ifs at h ⊢ <;> simp_all

/-- When `voted_for` holds a truthy identifier, a vote can only be granted
to that same candidate. -/
theorem handle_vote_grant_same (s : ServerState) (r : VoteRequest) (c : Nat)
    (hv : s.voted_for = some c) (hc : c ≠ 0)
    (h : (handle_vote_request s r).1.voteGranted = true) :
    r.candidateId = c := by
  by_cases he : r.candidateId = c
  · exact he
  · exfalso
    have hcc : c ≠ r.candidateId := fun hx => he hx.symm
    have hb : votedForBlocks s.voted_for r.candidateId = true := by
      simp [votedForBlocks, hv, hc, hcc]
    simp only [handle_vote_request] at h
    split_ifs at h <;> simp_all

/-- Once `voted_for` holds a truthy candidate `c`, every grant in a run of
consecutive vote requests goes to `c`. -/
theorem grantsOf_fixed (c : Nat) (hc : c ≠ 0) :
    ∀ (rs : List VoteRequest) (s : ServerState), s.voted_for = some c →
      ∀ r ∈ grantsOf s rs, r.candidateId = c := by
  intro rs
  induction rs with
  | nil =>
    intro s _ r hr
    simp [grantsOf] at hr
  | cons q tl ih =>
    intro s hv r hr
    simp only [grantsOf] at hr
    by_cases hg : (handle_vote_request s q).1.voteGranted = true
    · rw [if_pos hg] at hr
      have hsame : q.candidateId = c := handle_vote_grant_same s q c hv hc hg
      have hvf : (handle_vote_request s q).2.voted_for = some c := by
        rw [handle_vote_grant_votedFor s q hg, hsame]
      rcases List.mem_cons.mp hr with rfl | hr2
      · exact hsame
      · exact ih (handle_vote_request s q).2 hvf r hr2
    · rw [if_neg hg] at hr
      rw [handle_vote_reject_state s q (by simpa using hg)] at hr
      exact ih s hv r hr

/-- C2 counterexample: from the fresh replica, a term-5 vote is granted to
candidate 1; an AppendEntries request with term 0 is then accepted (the
replica's term is still 0, since granting a vote never adopts the request
term) and resets `voted_for`; a second term-5 vote is then granted to the
distinct candidate 2 — two grants for term 5 to two candidates. -/
theorem c2_counterexample :
    (handle_vote_request (initServer 9 3) ⟨5, 1, 0, 0⟩).1.voteGranted = true ∧
    (handle_vote_request
      (runRpcs (initServer 9 3)
        [RpcInput.vote ⟨5, 1, 0, 0⟩, RpcInput.append ⟨0, 7, 0, 0, none, 0⟩])
      ⟨5, 2, 0, 0⟩).1.voteGranted = true ∧
    (1 : Nat) ≠ 2 := by decide

/-- C2 (amended): in the absence of intervening accepted AppendEntries
requests (which reset `voted_for`), a replica grants votes to at most one
distinct candidate across any consecutive run of handled RequestVote RPCs
with truthy candidate identifiers — in particular at most one distinct
candidate per term. -/
theorem c2_votes_single_candidate (s : ServerState) (rs : List VoteRequest)
    (hids : ∀ r ∈ rs, r.candidateId ≠ 0) :
    ∀ p ∈ grantsOf s rs, ∀ q ∈ grantsOf s rs,
      p.candidateId = q.candidateId := by
  induction rs generalizing s with
  | nil =>
    intro p hp
    simp [grantsOf] at hp
  | cons a tl ih =>
    intro p hp q hq
    simp only [grantsOf] at hp hq
    by_cases hg : (handle_vote_request s a).1.voteGranted = true
    · rw [if_pos hg] at hp hq
      have hca : a.candidateId ≠ 0 := hids a (List.mem_cons_self a tl)
      have hvf : (handle_vote_request s a).2.voted_for = some a.candidateId :=
        handle_vote_grant_votedFor s a hg
      have hall := grantsOf_fixed a.candidateId hca tl
        (handle_vote_request s a).2 hvf
      rcases List.mem_cons.mp hp with rfl | hp2
      · rcases List.mem_cons.mp hq with rfl | hq2
        · rfl
        · exact (hall q hq2).symm
      · rcases List.mem_cons.mp hq with rfl | hq2
        · exact hall p hp2
        · rw [hall p hp2, hall q hq2]
    · rw [if_neg hg] at hp hq
      rw [handle_vote_reject_state s a (by simpa using hg)] at hp hq
      exact ih s (fun r hr => hids r (List.mem_cons_of_mem a hr)) p hp q hq

/-- C2 witness: two granted requests from the same candidate in one run. -/
theorem c2_witness :
    (⟨5, 1, 0, 0⟩ : VoteRequest) ∈
      grantsOf (initServer 9 3) [⟨5, 1, 0, 0⟩, ⟨6, 1, 1, 1⟩] ∧
    VoteRequest.candidateId ⟨5, 1, 0, 0⟩ = VoteRequest.candidateId ⟨6, 1, 1, 1⟩ :=
  ⟨by decide,
   c2_votes_single_candidate (initServer 9 3) [⟨5, 1, 0, 0⟩, ⟨6, 1, 1, 1⟩]
    (by decide) ⟨5, 1, 0, 0⟩ (by decide) ⟨6, 1, 1, 1⟩ (by decide)⟩

end Raft
